import Mathlib

/-!
# Verification of the nes-rs CPU core against its specification

This development shallowly embeds the parts of the `nes-rs` NES emulator
(an interpreter for the MOS 6502 / 2A03 CPU) that the analysed claims
concern: the arithmetic and paging helpers (`src/utils/arithmetic.rs`,
`src/utils/paging.rs`), the CPU register file and flag helpers
(`src/nes/cpu.rs`), the memory bus with its address decoder, permission
gating, PPU-register touch states and stack helpers (`src/nes/memory.rs`),
and the instruction decode / execute arms relevant to the claims
(`src/nes/opcode.rs`, `src/nes/instruction.rs`).

Machine integers are embedded as `Nat` with explicit `% 2^w` wrapping;
Rust panics (the unmapped-address arm of the bus decoder, unknown opcodes)
become `Option.none`.  Rust's in-place mutation becomes explicit state
passing of the `CPU` and `Memory` records.
-/

namespace NesRs

/-! ## Machine-integer helpers

Rust's `wrapping_add` / `wrapping_sub` / `overflowing_add` /
`overflowing_sub` on `u8` and `u16`, written on `Nat` with explicit
modular reduction. -/

/-- Embeds `u8::wrapping_add`. -/
def wrappingAdd8 (a b : Nat) : Nat := (a + b) % 256

/-- Embeds `u8::wrapping_sub`. -/
def wrappingSub8 (a b : Nat) : Nat := (a + 256 - b % 256) % 256

/-- Embeds `u16::wrapping_add`; also used for ordinary `u16` addition, which wraps
in release builds. -/
def wrappingAdd16 (a b : Nat) : Nat := (a + b) % 65536

/-- Embeds `u16::wrapping_sub`; also used for ordinary `u16` subtraction. -/
def wrappingSub16 (a b : Nat) : Nat := (a + 65536 - b % 65536) % 65536

/-- Embeds `u8::overflowing_add`: the wrapped sum and whether the true sum
overflowed 8 bits. -/
def overflowingAdd8 (a b : Nat) : Nat × Bool :=
  ((a + b) % 256, decide (256 ≤ a % 256 + b % 256))

/-- Embeds `u8::overflowing_sub`: the wrapped difference and whether a borrow
occurred. -/
def overflowingSub8 (a b : Nat) : Nat × Bool :=
  (wrappingSub8 a b, decide (a % 256 < b % 256))

/-- Bitwise complement on a `u8` (`!mask` in Rust). -/
def not8 (v : Nat) : Nat := 255 - v % 256

/-- The interpretation of a byte as Rust's `i8` (two's complement), used by
`Instruction::relative`. -/
def toI8 (b : Nat) : Int :=
  if b % 256 < 128 then (b % 256 : Int) else (b % 256 : Int) - 256

/-! ## `src/utils/arithmetic.rs` -/

/-- Embeds `SIGN_BITMASK`. -/
def SIGN_BITMASK : Nat := 0x80

/-- Embeds `arithmetic::is_negative`: checks whether bit 7 is set
(`arg & SIGN_BITMASK == SIGN_BITMASK`). -/
def is_negative (arg : Nat) : Bool := arg &&& SIGN_BITMASK == SIGN_BITMASK

/-- Two's-complement reduction of an integer into the `i8` range, as
Rust's wrapping `i8` arithmetic produces in release builds (negating
`i8::MIN` wraps back to `i8::MIN`). -/
def wrapI8 (x : Int) : Int := (x + 128) % 256 - 128

/-- The `as u16` cast applied to a (wrapped) `i8` value: two's-complement
reduction mod 2^16, i.e. sign extension. -/
def i8AsU16 (x : Int) : Nat := (wrapI8 x % 65536).toNat

/-- Embeds `arithmetic::add_relative`: adds a signed 8-bit displacement to a `u16`
base address with 16-bit wraparound.  For a negative displacement the
source computes `base_addr.wrapping_sub(-(displacement) as u16)`: the
unary minus negates the `i8` first, so for `displacement = -128` the
negation wraps (in release builds) back to `-128`, which sign-extends to
`0xFF80`, and the subtraction becomes an addition of 128. -/
def add_relative (base_addr : Nat) (displacement : Int) : Nat :=
  if displacement < 0 then
    wrappingSub16 base_addr (i8AsU16 (-displacement))
  else
    wrappingAdd16 base_addr displacement.toNat

/-! ## `src/utils/paging.rs` -/

/-- Embeds `paging::PageCross`. -/
inductive PageCross
  | Same
  | Backwards
  | Forwards
  deriving DecidableEq, Repr

/-- Embeds `paging::page`: the page index of an address
(`(addr as u16 >> 8) as u8`, i.e. the address truncated to 16 bits, high
byte). -/
def page (addr : Nat) : Nat := addr % 65536 / 256

/-- Embeds `paging::page_cross`: direction of the page cross between two
addresses. -/
def page_cross (addr1 addr2 : Nat) : PageCross :=
  let page1 := page addr1
  let page2 := page addr2
  if page1 > page2 then PageCross.Backwards
  else if page1 < page2 then PageCross.Forwards
  else PageCross.Same

/-! ## `src/nes/cpu.rs`: registers and flag helpers -/

/-- Flag constants from `cpu.rs`. -/
def CARRY_FLAG : Nat := 0x1
def ZERO_FLAG : Nat := 0x2
def INTERRUPT_DISABLE : Nat := 0x4
def DECIMAL_MODE : Nat := 0x8
def BREAK_COMMAND : Nat := 0x10
def OVERFLOW_FLAG : Nat := 0x40
def NEGATIVE_FLAG : Nat := 0x80

/-- The 2A03 CPU register file (`struct CPU`): 16-bit `pc`, 8-bit `sp`,
`a`, `x`, `y`, `p`, and the cycle and PPU-dot accumulators.  The
runtime-options and log-file fields play no part in instruction semantics
and are omitted. -/
structure CPU where
  pc : Nat
  sp : Nat
  a : Nat
  x : Nat
  y : Nat
  p : Nat
  cycles : Nat
  ppu_dots : Nat
  deriving DecidableEq, Repr

namespace CPU

def set_carry_flag (c : CPU) : CPU := { c with p := c.p ||| CARRY_FLAG }
def set_zero_flag (c : CPU) : CPU := { c with p := c.p ||| ZERO_FLAG }
def set_interrupt_disable (c : CPU) : CPU := { c with p := c.p ||| INTERRUPT_DISABLE }
def set_decimal_mode (c : CPU) : CPU := { c with p := c.p ||| DECIMAL_MODE }
def set_break_command (c : CPU) : CPU := { c with p := c.p ||| BREAK_COMMAND }
def set_overflow_flag (c : CPU) : CPU := { c with p := c.p ||| OVERFLOW_FLAG }
def set_negative_flag (c : CPU) : CPU := { c with p := c.p ||| NEGATIVE_FLAG }

def unset_carry_flag (c : CPU) : CPU := { c with p := c.p &&& not8 CARRY_FLAG }
def unset_zero_flag (c : CPU) : CPU := { c with p := c.p &&& not8 ZERO_FLAG }
def unset_interrupt_disable (c : CPU) : CPU := { c with p := c.p &&& not8 INTERRUPT_DISABLE }
def unset_decimal_mode (c : CPU) : CPU := { c with p := c.p &&& not8 DECIMAL_MODE }
def unset_break_command (c : CPU) : CPU := { c with p := c.p &&& not8 BREAK_COMMAND }
def unset_overflow_flag (c : CPU) : CPU := { c with p := c.p &&& not8 OVERFLOW_FLAG }
def unset_negative_flag (c : CPU) : CPU := { c with p := c.p &&& not8 NEGATIVE_FLAG }

def carry_flag_set (c : CPU) : Bool := c.p &&& CARRY_FLAG == CARRY_FLAG
def zero_flag_set (c : CPU) : Bool := c.p &&& ZERO_FLAG == ZERO_FLAG
def interrupt_disable_set (c : CPU) : Bool := c.p &&& INTERRUPT_DISABLE == INTERRUPT_DISABLE
def decimal_mode_set (c : CPU) : Bool := c.p &&& DECIMAL_MODE == DECIMAL_MODE
def break_command_set (c : CPU) : Bool := c.p &&& BREAK_COMMAND == BREAK_COMMAND
def overflow_flag_set (c : CPU) : Bool := c.p &&& OVERFLOW_FLAG == OVERFLOW_FLAG
def negative_flag_set (c : CPU) : Bool := c.p &&& NEGATIVE_FLAG == NEGATIVE_FLAG

def toggle_carry_flag (c : CPU) (overflow : Bool) : CPU :=
  if overflow then c.set_carry_flag else c.unset_carry_flag

def toggle_zero_flag (c : CPU) (value : Nat) : CPU :=
  if value == 0 then c.set_zero_flag else c.unset_zero_flag

def toggle_negative_flag (c : CPU) (value : Nat) : CPU :=
  if is_negative value then c.set_negative_flag else c.unset_negative_flag

end CPU

/-! ## `src/nes/memory.rs`: the CPU-side memory bus -/

/-- Memory partition sizes and virtual memory map bounds from
`memory.rs`. -/
abbrev RAM_SIZE : Nat := 0x800
abbrev PPU_CTRL_REGISTERS_SIZE : Nat := 0x8
abbrev MISC_CTRL_REGISTERS_SIZE : Nat := 0x20
abbrev RAM_END_ADDR : Nat := 0x7FF
abbrev RAM_MIRROR_END : Nat := 0x1FFF
abbrev PPU_CTRL_REGISTERS_START : Nat := 0x2000
abbrev PPU_CTRL_REGISTERS_END : Nat := 0x2007
abbrev PPU_CTRL_REGISTERS_MIRROR_END : Nat := 0x3FFF
abbrev MISC_CTRL_REGISTERS_START : Nat := 0x4000
abbrev MISC_CTRL_REGISTERS_END : Nat := 0x401F
abbrev EXPANSION_ROM_START : Nat := 0x4020
abbrev EXPANSION_ROM_END : Nat := 0x5FFF
abbrev SRAM_START : Nat := 0x6000
abbrev SRAM_END : Nat := 0x7FFF
abbrev PRG_ROM_1_START : Nat := 0x8000
abbrev PRG_ROM_1_END : Nat := 0xBFFF
abbrev PRG_ROM_2_START : Nat := 0xC000
abbrev PRG_ROM_2_END : Nat := 0xFFFF
abbrev STACK_OFFSET : Nat := 0x100

/-- Embeds `MemoryOperation`: the access type handed to the bus decoder. -/
inductive MemoryOperation
  | Read
  | Write
  | Nop
  deriving DecidableEq, Repr

/-- Embeds `PPURegisterStatus`: the touch state of a PPU register. -/
inductive PPURegisterStatus
  | Read
  | Written
  | WrittenTwice
  | Untouched
  deriving DecidableEq, Repr

/-- Embeds `MiscRegisterStatus`: the touch state of an APU/IO register. -/
inductive MiscRegisterStatus
  | Read
  | Written
  | Untouched
  deriving DecidableEq, Repr

/-- The physical banks of `struct Memory`, embedded as functions from a
bank index to the stored byte. -/
structure Memory where
  ram : Nat → Nat
  ppu_ctrl_registers : Nat → Nat
  ppu_ctrl_registers_status : Nat → PPURegisterStatus
  misc_ctrl_registers : Nat → Nat
  misc_ctrl_registers_status : Nat → MiscRegisterStatus
  expansion_rom : Nat → Nat
  sram : Nat → Nat
  prg_rom_1 : Nat → Nat
  prg_rom_2 : Nat → Nat

/-- Which physical bank the decoder selected (the mutable slice returned
by `Memory::map`). -/
inductive Bank
  | ram
  | ppu
  | misc
  | expansion
  | sram
  | prg1
  | prg2
  deriving DecidableEq, Repr

namespace Memory

/-- Embeds `Memory::new`: all banks zeroed, all register statuses untouched. -/
def new : Memory where
  ram := fun _ => 0
  ppu_ctrl_registers := fun _ => 0
  ppu_ctrl_registers_status := fun _ => PPURegisterStatus.Untouched
  misc_ctrl_registers := fun _ => 0
  misc_ctrl_registers_status := fun _ => MiscRegisterStatus.Untouched
  expansion_rom := fun _ => 0
  sram := fun _ => 0
  prg_rom_1 := fun _ => 0
  prg_rom_2 := fun _ => 0

/-- Read the byte at `idx` in the selected bank. -/
def bankRead (m : Memory) : Bank → Nat → Nat
  | Bank.ram, i => m.ram i
  | Bank.ppu, i => m.ppu_ctrl_registers i
  | Bank.misc, i => m.misc_ctrl_registers i
  | Bank.expansion, i => m.expansion_rom i
  | Bank.sram, i => m.sram i
  | Bank.prg1, i => m.prg_rom_1 i
  | Bank.prg2, i => m.prg_rom_2 i

/-- Store a byte at `idx` in the selected bank (`bank[idx] = val`). -/
def bankWrite (m : Memory) : Bank → Nat → Nat → Memory
  | Bank.ram, i, v => { m with ram := fun j => if j = i then v else m.ram j }
  | Bank.ppu, i, v => { m with ppu_ctrl_registers := fun j => if j = i then v else m.ppu_ctrl_registers j }
  | Bank.misc, i, v => { m with misc_ctrl_registers := fun j => if j = i then v else m.misc_ctrl_registers j }
  | Bank.expansion, i, v => { m with expansion_rom := fun j => if j = i then v else m.expansion_rom j }
  | Bank.sram, i, v => { m with sram := fun j => if j = i then v else m.sram j }
  | Bank.prg1, i, v => { m with prg_rom_1 := fun j => if j = i then v else m.prg_rom_1 j }
  | Bank.prg2, i, v => { m with prg_rom_2 := fun j => if j = i then v else m.prg_rom_2 j }

/-- Embeds `Memory::update_ppu_register_status`: reads never demote a written
state; a second write promotes `Written` to `WrittenTwice`; `Nop` accesses
leave the status alone. -/
def update_ppu_register_status (m : Memory) (addr : Nat) (operation : MemoryOperation) : Memory :=
  let s := m.ppu_ctrl_registers_status
  let newStatus :=
    if s addr = PPURegisterStatus.Written ∧ operation = MemoryOperation.Write then
      PPURegisterStatus.WrittenTwice
    else if s addr ≠ PPURegisterStatus.Written ∧ s addr ≠ PPURegisterStatus.WrittenTwice then
      match operation with
      | MemoryOperation.Read => PPURegisterStatus.Read
      | MemoryOperation.Write => PPURegisterStatus.Written
      | MemoryOperation.Nop => s addr
    else
      s addr
  { m with ppu_ctrl_registers_status := fun j => if j = addr then newStatus else s j }

/-- Embeds `Memory::map_ppu_registers`: per-register read/write permissions for
the eight PPU registers, updating the touch status first. -/
def map_ppu_registers (m : Memory) (addr : Nat) (operation : MemoryOperation) :
    Memory × Bank × Nat × Bool × Bool :=
  let m := m.update_ppu_register_status addr operation
  match addr with
  | 0 => (m, Bank.ppu, addr, false, true)
  | 1 => (m, Bank.ppu, addr, false, true)
  | 2 => (m, Bank.ppu, addr, true, false)
  | 3 => (m, Bank.ppu, addr, false, true)
  | 4 => (m, Bank.ppu, addr, true, true)
  | 5 => (m, Bank.ppu, addr, false, true)
  | 6 => (m, Bank.ppu, addr, false, true)
  | 7 => (m, Bank.ppu, addr, true, true)
  | _ => (m, Bank.ppu, addr, true, true)

/-- Embeds `Memory::update_misc_register_status`. -/
def update_misc_register_status (m : Memory) (addr : Nat) (operation : MemoryOperation) : Memory :=
  let s := m.misc_ctrl_registers_status
  let newStatus :=
    match operation with
    | MemoryOperation.Read => MiscRegisterStatus.Read
    | MemoryOperation.Write => MiscRegisterStatus.Written
    | MemoryOperation.Nop => s addr
  { m with misc_ctrl_registers_status := fun j => if j = addr then newStatus else s j }

/-- Embeds `Memory::map_misc_registers`: `$4014` (OAM DMA) is write-only, the
rest read/write. -/
def map_misc_registers (m : Memory) (addr : Nat) (operation : MemoryOperation) :
    Memory × Bank × Nat × Bool × Bool :=
  let m := m.update_misc_register_status addr operation
  match addr with
  | 0x14 => (m, Bank.misc, addr, false, true)
  | _ => (m, Bank.misc, addr, true, true)

/-- Embeds `Memory::map`: the address decoder.  The ordered range match of the
source becomes a cascade of upper-bound tests; the final panic arm (an
address outside the 16-bit map) becomes `none`. -/
def map (m : Memory) (addr : Nat) (operation : MemoryOperation) :
    Option (Memory × Bank × Nat × Bool × Bool) :=
  if addr ≤ RAM_END_ADDR then
    some (m, Bank.ram, addr, true, true)
  else if addr ≤ RAM_MIRROR_END then
    some (m, Bank.ram, addr % RAM_SIZE, true, true)
  else if addr ≤ PPU_CTRL_REGISTERS_END then
    some (m.map_ppu_registers (addr - PPU_CTRL_REGISTERS_START) operation)
  else if addr ≤ PPU_CTRL_REGISTERS_MIRROR_END then
    some (m.map_ppu_registers ((addr - PPU_CTRL_REGISTERS_START) % PPU_CTRL_REGISTERS_SIZE) operation)
  else if addr ≤ MISC_CTRL_REGISTERS_END then
    some (m.map_misc_registers (addr - MISC_CTRL_REGISTERS_START) operation)
  else if addr ≤ EXPANSION_ROM_END then
    some (m, Bank.expansion, addr - EXPANSION_ROM_START, true, false)
  else if addr ≤ SRAM_END then
    some (m, Bank.sram, addr - SRAM_START, true, true)
  else if addr ≤ PRG_ROM_1_END then
    some (m, Bank.prg1, addr - PRG_ROM_1_START, true, false)
  else if addr ≤ PRG_ROM_2_END then
    some (m, Bank.prg2, addr - PRG_ROM_2_START, true, false)
  else
    none

/-- Embeds `Memory::read_u8`: decode, then return the stored byte when the region
is readable and `0` otherwise.  The returned memory carries the touch-state
update performed by the decoder. -/
def read_u8 (m : Memory) (addr : Nat) : Option (Nat × Memory) :=
  match m.map addr MemoryOperation.Read with
  | none => none
  | some (m1, bank, idx, readable, _) =>
    some (if readable then m1.bankRead bank idx else 0, m1)

/-- Embeds `Memory::write_u8`: decode, then store the byte when the region is
writable; otherwise the write is dropped. -/
def write_u8 (m : Memory) (addr : Nat) (val : Nat) : Option Memory :=
  match m.map addr MemoryOperation.Write with
  | none => none
  | some (m1, bank, idx, _, writable) =>
    some (if writable then m1.bankWrite bank idx val else m1)

/-- Embeds `Memory::read_u16_wrapped_msb`: a little-endian 16-bit read where the
MSB is fetched from the start of the page (`addr - 0xFF`) when the LSB sits
at the end of a page (`addr & 0xFF == 0xFF`, written `addr % 256` here),
reproducing the 2A03 indirect-JMP bug. -/
def read_u16_wrapped_msb (m : Memory) (addr : Nat) : Option (Nat × Memory) := do
  let (lsb, m) ← m.read_u8 addr
  let (msb, m) ←
    if addr % 256 = 0xFF then
      m.read_u8 (addr - 0xFF)
    else
      m.read_u8 (addr + 1)
  pure (lsb + 256 * msb, m)

/-- Embeds `Memory::read_u16_alt`: little-endian 16-bit read of the bytes at
`addr - 1` and `addr`. -/
def read_u16_alt (m : Memory) (addr : Nat) : Option (Nat × Memory) := do
  let (lo, m) ← m.read_u8 (addr - 1)
  let (hi, m) ← m.read_u8 addr
  pure (lo + 256 * hi, m)

/-- Embeds `Memory::write_u16_alt`: little-endian 16-bit write of the low byte at
`addr - 1` and the high byte at `addr`. -/
def write_u16_alt (m : Memory) (addr : Nat) (val : Nat) : Option Memory := do
  let m ← m.write_u8 (addr - 1) (val % 256)
  m.write_u8 addr (val / 256 % 256)

/-- Embeds `Memory::stack_push_u8`: write at `$0100 + SP`, then decrement SP with
8-bit wraparound. -/
def stack_push_u8 (m : Memory) (cpu : CPU) (value : Nat) : Option (Memory × CPU) := do
  let m ← m.write_u8 (STACK_OFFSET + cpu.sp) value
  pure (m, { cpu with sp := wrappingSub8 cpu.sp 1 })

/-- Embeds `Memory::stack_pop_u8`: increment SP with 8-bit wraparound, then read
at `$0100 + SP`. -/
def stack_pop_u8 (m : Memory) (cpu : CPU) : Option (Nat × Memory × CPU) := do
  let cpu := { cpu with sp := wrappingAdd8 cpu.sp 1 }
  let (v, m) ← m.read_u8 (STACK_OFFSET + cpu.sp)
  pure (v, m, cpu)

/-- Embeds `Memory::stack_push_u16`: 16-bit push via `write_u16_alt` at
`$0100 + SP`, then SP decremented by two with 8-bit wraparound. -/
def stack_push_u16 (m : Memory) (cpu : CPU) (value : Nat) : Option (Memory × CPU) := do
  let m ← m.write_u16_alt (STACK_OFFSET + cpu.sp) value
  pure (m, { cpu with sp := wrappingSub8 cpu.sp 2 })

/-- Embeds `Memory::stack_pop_u16`: SP incremented by two with 8-bit wraparound,
then a 16-bit read via `read_u16_alt` at `$0100 + SP`. -/
def stack_pop_u16 (m : Memory) (cpu : CPU) : Option (Nat × Memory × CPU) := do
  let cpu := { cpu with sp := wrappingAdd8 cpu.sp 2 }
  let (v, m) ← m.read_u16_alt (STACK_OFFSET + cpu.sp)
  pure (v, m, cpu)

end Memory

/-! ## `src/nes/opcode.rs`: decode and instruction lengths

Only the sixteen opcodes exercised by the analysed claims are embedded;
the source's table decodes all 151 official opcodes and panics on the
rest, so every byte outside this set decodes to `none` here. -/

/-- The decoded opcodes used in this development. -/
inductive Opcode
  | ADCImm
  | SBCImm
  | BCCRel
  | BCSRel
  | BEQRel
  | BMIRel
  | BNERel
  | BPLRel
  | BVCRel
  | BVSRel
  | BRKImp
  | JMPInd
  | JSRAbs
  | RTSImp
  | PHPImp
  | PLPImp
  deriving DecidableEq, Repr

/-- Embeds `opcode::decode_opcode` restricted to the embedded opcodes (byte
values from the `enum_from_primitive!` table in `opcode.rs`). -/
def decode_opcode (opcode : Nat) : Option Opcode :=
  if opcode = 0x69 then some Opcode.ADCImm
  else if opcode = 0xE9 then some Opcode.SBCImm
  else if opcode = 0x90 then some Opcode.BCCRel
  else if opcode = 0xB0 then some Opcode.BCSRel
  else if opcode = 0xF0 then some Opcode.BEQRel
  else if opcode = 0x30 then some Opcode.BMIRel
  else if opcode = 0xD0 then some Opcode.BNERel
  else if opcode = 0x10 then some Opcode.BPLRel
  else if opcode = 0x50 then some Opcode.BVCRel
  else if opcode = 0x70 then some Opcode.BVSRel
  else if opcode = 0x00 then some Opcode.BRKImp
  else if opcode = 0x6C then some Opcode.JMPInd
  else if opcode = 0x20 then some Opcode.JSRAbs
  else if opcode = 0x60 then some Opcode.RTSImp
  else if opcode = 0x08 then some Opcode.PHPImp
  else if opcode = 0x28 then some Opcode.PLPImp
  else none

/-- Embeds `opcode::opcode_len` for the embedded opcodes. -/
def opcode_len : Opcode → Nat
  | Opcode.ADCImm => 2
  | Opcode.SBCImm => 2
  | Opcode.BCCRel => 2
  | Opcode.BCSRel => 2
  | Opcode.BEQRel => 2
  | Opcode.BMIRel => 2
  | Opcode.BNERel => 2
  | Opcode.BPLRel => 2
  | Opcode.BVCRel => 2
  | Opcode.BVSRel => 2
  | Opcode.BRKImp => 1
  | Opcode.JMPInd => 3
  | Opcode.JSRAbs => 3
  | Opcode.RTSImp => 1
  | Opcode.PHPImp => 1
  | Opcode.PLPImp => 1

/-! ## `src/nes/instruction.rs`: the instruction and its execution -/

/-- Embeds `struct Instruction(u8, u8, u8)`: opcode byte plus up to two argument
bytes. -/
structure Instruction where
  op : Nat
  arg1 : Nat
  arg2 : Nat
  deriving DecidableEq, Repr

/-- Embeds `CPU::poll_irq` is called by `Instruction::execute` but its definition
is not part of the sources.

Modelled from the spec: the specification's CPU step is decode, execute,
then cycle/PPU-dot bookkeeping only — it defines no interrupt delivery,
and notes that none of the source's partial BRK/IRQ revisions fetch the
`$FFFE` vector, so polling the (absent) IRQ collaborator changes
nothing. -/
def CPU.poll_irq (c : CPU) (m : Memory) : CPU × Memory := (c, m)

namespace Instruction

/-- Embeds `Instruction::parse`: read the opcode byte at `pc`, then as many
argument bytes as the opcode's length requires. -/
def parse (pc : Nat) (memory : Memory) : Option (Instruction × Memory) := do
  let (raw_opcode, memory) ← memory.read_u8 pc
  let opcode ← decode_opcode raw_opcode
  match opcode_len opcode with
  | 1 => pure (⟨raw_opcode, 0, 0⟩, memory)
  | 2 => do
    let (b1, memory) ← memory.read_u8 (pc + 1)
    pure (⟨raw_opcode, b1, 0⟩, memory)
  | 3 => do
    let (b1, memory) ← memory.read_u8 (pc + 1)
    let (b2, memory) ← memory.read_u8 (pc + 2)
    pure (⟨raw_opcode, b1, b2⟩, memory)
  | _ => none

/-- Embeds `Instruction::arg_u8`. -/
def arg_u8 (i : Instruction) : Nat := i.arg1

/-- Embeds `Instruction::arg_u16` (little-endian). -/
def arg_u16 (i : Instruction) : Nat := i.arg1 + 256 * i.arg2

/-- Embeds `Instruction::immediate`. -/
def immediate (i : Instruction) : Nat := i.arg_u8

/-- Embeds `Instruction::relative`: the argument byte as an `i8`. -/
def relative (i : Instruction) : Int := toI8 i.arg_u8

/-- Embeds `Instruction::absolute`. -/
def absolute (i : Instruction) : Nat := i.arg_u16

/-- The body shared verbatim by the eight relative-branch arms of
`Instruction::execute` (BCC/BCS/BEQ/BNE/BMI/BPL/BVC/BVS): when the
condition holds, move PC by the displacement, add one cycle, and add two
more when `page_cross(old_pc + len, new_pc)` reports a cross; afterwards
add the 2-cycle baseline and advance PC by the instruction length. -/
def branchRel (cond : Bool) (i : Instruction) (cpu : CPU) (len : Nat) : CPU :=
  let cpu :=
    if cond then
      let old_pc := cpu.pc
      let cpu := { cpu with pc := add_relative cpu.pc i.relative }
      let cpu := { cpu with cycles := cpu.cycles + 1 }
      if page_cross (old_pc + len) cpu.pc ≠ PageCross.Same then
        { cpu with cycles := cpu.cycles + 2 }
      else cpu
    else cpu
  { cpu with cycles := cpu.cycles + 2, pc := wrappingAdd16 cpu.pc len }

/-- The ADC arm of `Instruction::execute` applied to an operand byte
`arg` (the immediate arm passes `self.immediate()`): with carry set the
operand is pre-incremented with 8-bit wrap before a single overflowing
add. -/
def adcBody (arg : Nat) (cpu : CPU) (len cyc : Nat) : CPU :=
  let ro :=
    if cpu.carry_flag_set then
      overflowingAdd8 cpu.a (wrappingAdd8 arg 1)
    else
      overflowingAdd8 cpu.a arg
  let result := ro.1
  let overflow := ro.2
  let cpu :=
    if not8 (cpu.a ^^^ arg) &&& (cpu.a ^^^ result) &&& 0x80 = 0x80 then
      cpu.set_overflow_flag
    else
      cpu.unset_overflow_flag
  let cpu := { cpu with a := result }
  let cpu := cpu.toggle_carry_flag overflow
  let cpu := cpu.toggle_zero_flag result
  let cpu := cpu.toggle_negative_flag result
  { cpu with cycles := cpu.cycles + cyc, pc := wrappingAdd16 cpu.pc len }

/-- The SBC arm of `Instruction::execute` applied to an operand byte
`arg`: with carry clear the operand is pre-incremented with 8-bit wrap
before a single overflowing subtract; the carry flag is set from the
negated borrow. -/
def sbcBody (arg : Nat) (cpu : CPU) (len cyc : Nat) : CPU :=
  let ro :=
    if !cpu.carry_flag_set then
      overflowingSub8 cpu.a (wrappingAdd8 arg 1)
    else
      overflowingSub8 cpu.a arg
  let result := ro.1
  let overflow := ro.2
  let cpu :=
    if (cpu.a ^^^ arg) &&& (cpu.a ^^^ result) &&& 0x80 = 0x80 then
      cpu.set_overflow_flag
    else
      cpu.unset_overflow_flag
  let cpu := { cpu with a := result }
  let cpu := cpu.toggle_carry_flag !overflow
  let cpu := cpu.toggle_zero_flag result
  let cpu := cpu.toggle_negative_flag result
  { cpu with cycles := cpu.cycles + cyc, pc := wrappingAdd16 cpu.pc len }

/-- Embeds `Instruction::execute` for the embedded opcodes, ending with the
`poll_irq` call the source performs after the opcode match. -/
def execute (i : Instruction) (cpu : CPU) (memory : Memory) : Option (CPU × Memory) := do
  let opcode ← decode_opcode i.op
  let len := opcode_len opcode
  let (cpu, memory) ←
    match opcode with
    | Opcode.ADCImm =>
      some (adcBody i.immediate cpu len 2, memory)
    | Opcode.SBCImm =>
      some (sbcBody i.immediate cpu len 2, memory)
    | Opcode.BCCRel =>
      some (i.branchRel (!cpu.carry_flag_set) cpu len, memory)
    | Opcode.BCSRel =>
      some (i.branchRel cpu.carry_flag_set cpu len, memory)
    | Opcode.BEQRel =>
      some (i.branchRel cpu.zero_flag_set cpu len, memory)
    | Opcode.BMIRel =>
      some (i.branchRel cpu.negative_flag_set cpu len, memory)
    | Opcode.BNERel =>
      some (i.branchRel (!cpu.zero_flag_set) cpu len, memory)
    | Opcode.BPLRel =>
      some (i.branchRel (!cpu.negative_flag_set) cpu len, memory)
    | Opcode.BVCRel =>
      some (i.branchRel (!cpu.overflow_flag_set) cpu len, memory)
    | Opcode.BVSRel =>
      some (i.branchRel cpu.overflow_flag_set cpu len, memory)
    | Opcode.BRKImp => do
      -- Fires an IRQ interrupt.
      let p := cpu.p
      let pc := wrappingAdd16 cpu.pc len
      let (memory, cpu) ← memory.stack_push_u16 cpu pc
      let (memory, cpu) ← memory.stack_push_u8 cpu p
      let cpu := cpu.set_break_command
      pure ({ cpu with cycles := cpu.cycles + 7, pc := pc }, memory)
    | Opcode.JMPInd => do
      -- A special version of indirect addressing for the indirect JMP bug.
      let arg := i.arg_u16
      let (v, memory) ← memory.read_u16_wrapped_msb arg
      pure ({ cpu with pc := v, cycles := cpu.cycles + 5 }, memory)
    | Opcode.JSRAbs => do
      let pc := cpu.pc
      let (memory, cpu) ← memory.stack_push_u16 cpu (wrappingSub16 (wrappingAdd16 pc len) 1)
      pure ({ cpu with pc := i.absolute, cycles := cpu.cycles + 6 }, memory)
    | Opcode.RTSImp => do
      let (v, memory, cpu) ← memory.stack_pop_u16 cpu
      pure ({ cpu with pc := wrappingAdd16 v len, cycles := cpu.cycles + 6 }, memory)
    | Opcode.PHPImp => do
      let p := cpu.p ||| 0x10
      let (memory, cpu) ← memory.stack_push_u8 cpu p
      pure ({ cpu with cycles := cpu.cycles + 3, pc := wrappingAdd16 cpu.pc len }, memory)
    | Opcode.PLPImp => do
      let old_flags := cpu.p
      let (v, memory, cpu) ← memory.stack_pop_u8 cpu
      let p := (v &&& 0xEF) ||| (old_flags &&& 0x20)
      pure ({ cpu with p := p, cycles := cpu.cycles + 4, pc := wrappingAdd16 cpu.pc len }, memory)
  pure (cpu.poll_irq memory)

end Instruction

/-- One fetch–decode–execute step: `Instruction::parse` at the program
counter followed by `Instruction::execute`, as performed by
`CPU::execute`. -/
def step (cpu : CPU) (memory : Memory) : Option (CPU × Memory) := do
  let (instr, memory) ← Instruction.parse cpu.pc memory
  instr.execute cpu memory

/-! ## Shared lemmas about the bus -/

/-- Addresses up to `$07FF` decode to internal RAM, readable and
writable. -/
theorem Memory.map_ram_of_le (m : Memory) (a : Nat) (op : MemoryOperation) (h : a ≤ 0x7FF) :
    m.map a op = some (m, Bank.ram, a, true, true) := by
  unfold Memory.map
  rw [if_pos h]

/-- Reading a RAM address returns the stored byte and leaves the memory
unchanged. -/
theorem Memory.read_u8_ram (m : Memory) (a : Nat) (h : a ≤ 0x7FF) :
    m.read_u8 a = some (m.ram a, m) := by
  unfold Memory.read_u8
  rw [Memory.map_ram_of_le m a MemoryOperation.Read h]
  rfl

/-- Writing a RAM address stores the byte into the RAM bank. -/
theorem Memory.write_u8_ram (m : Memory) (a v : Nat) (h : a ≤ 0x7FF) :
    m.write_u8 a v = some { m with ram := fun j => if j = a then v else m.ram j } := by
  unfold Memory.write_u8
  rw [Memory.map_ram_of_le m a MemoryOperation.Write h]
  rfl

/-- Unfolding lemma for the page-cross classifier: a non-`Same` result is
exactly a difference of page indices. -/
theorem page_cross_ne_same_iff (a b : Nat) :
    page_cross a b ≠ PageCross.Same ↔ page a ≠ page b := by
  unfold page_cross
  by_cases h1 : page a > page b
  · simp [h1]
    omega
  · by_cases h2 : page a < page b
    · simp [h1, h2]
      omega
    · simp [h1, h2]
      omega

/-! ## Concrete states used by the claim exhibits -/

/-- A CPU state with the carry flag set (`P = $01`) and `A = 0`, about to
execute at `$C000`. -/
def carrySetCPU : CPU := ⟨0xC000, 0xFD, 0x00, 0, 0, 0x01, 0, 0⟩

/-- A CPU state with the power-on status `P = $24` (carry clear) and
`A = 0`. -/
def carryClearCPU : CPU := ⟨0xC000, 0xFD, 0x00, 0, 0, 0x24, 0, 0⟩

/-! ## C1: ADC flag semantics -/

/-- C1: the claim states that ADC sets the carry flag iff
`A + M + C >= 256`.  The code folds the carry into the operand with
`arg.wrapping_add(1)` before a single `overflowing_add`, so for
`M = $FF` with carry set the addend wraps to `0` and the unsigned
overflow is lost: with `A = 0`, `P.C = 1`, `ADC #$FF` the true sum is
`256`, the result byte and Z/N/V are produced correctly, but the carry
flag comes out clear where the claim requires it set. -/
theorem adc_carry_lost_on_max_operand :
    ((⟨0x69, 0xFF, 0⟩ : Instruction).execute carrySetCPU Memory.new).map
        (fun r => (r.1.a, r.1.carry_flag_set, r.1.zero_flag_set, r.1.pc, r.1.cycles)) =
      some (0, false, true, 0xC002, 2) ∧
    256 ≤ carrySetCPU.a + 0xFF + 1 := by
  exact ⟨by decide, by decide⟩

/-! ## C2: SBC flag semantics -/

/-- C2: the claim states that SBC sets the carry flag iff no borrow
occurred, i.e. iff `A >= M + (1 - C)` as unsigned integers.  The code
folds the borrow into the operand with `arg.wrapping_add(1)` before a
single `overflowing_sub`, so for `M = $FF` with carry clear the
subtrahend wraps to `0` and the borrow is lost: with `A = 0`, `P.C = 0`,
`SBC #$FF` we have `A < M + 1 = 256`, so the claim requires the carry
clear (borrow), but the code leaves it set; the result byte itself is
correct (`0`). -/
theorem sbc_borrow_lost_on_max_operand :
    ((⟨0xE9, 0xFF, 0⟩ : Instruction).execute carryClearCPU Memory.new).map
        (fun r => (r.1.a, r.1.carry_flag_set, r.1.pc, r.1.cycles)) =
      some (0, true, 0xC002, 2) ∧
    carryClearCPU.a < 0xFF + 1 := by
  exact ⟨by decide, by decide⟩

/-! ## C3: branch semantics and cycle accounting -/

/-- Spec-side definition of the branch cycle cost exactly as the claim
states it: 2 cycles baseline, plus 1 for being taken, plus 2 more exactly
when the branch target lies on a different 256-byte page from the PC
after fetch.  Written from the claim's words, for comparison with the
code. -/
def branchClaimCost (pcAfterFetch target : Nat) : Nat :=
  2 + 1 + (if page target ≠ page pcAfterFetch then 2 else 0)

/-- Spec-side table giving, for each branch opcode byte, the flag
condition the claim associates with it (BCC/BCS/BEQ/BMI/BNE/BPL/BVC/BVS);
`none` for non-branch bytes. -/
def branchCondition (op : Nat) (cpu : CPU) : Option Bool :=
  if op = 0x90 then some (!cpu.carry_flag_set)
  else if op = 0xB0 then some cpu.carry_flag_set
  else if op = 0xF0 then some cpu.zero_flag_set
  else if op = 0x30 then some cpu.negative_flag_set
  else if op = 0xD0 then some (!cpu.zero_flag_set)
  else if op = 0x10 then some (!cpu.negative_flag_set)
  else if op = 0x50 then some (!cpu.overflow_flag_set)
  else if op = 0x70 then some cpu.overflow_flag_set
  else none

/-- The CPU state of the branch counterexample: `PC = $8000`, carry
set. -/
def branchCexCPU : CPU := ⟨0x8000, 0xFD, 0, 0, 0, 0x01, 0, 0⟩

/-- C3 counterexample, exhibiting two divergences from the claim at
concrete inputs.  First, `BCS $FE` (displacement −2) at `PC = $8000`
with the carry set branches to `$8000`, which lies on the same page as
the post-fetch PC `$8002`, so the claim's accounting predicts
`2 + 1 = 3` cycles; the code nevertheless charges 5, because it compares
the post-fetch PC against `PC + displacement` (`$7FFE`, one page below)
rather than against the branch target.  Second, `BCS $80`
(displacement −128) at the same state lands on `$8082 = PC + 128 + 2`,
not on the claim's `PC + 2 − 128 = $7F82`: the source negates the `i8`
displacement before widening, and negating −128 wraps, turning the
branch into a forward one. -/
theorem branch_pagecross_counterexample :
    ((⟨0xB0, 0xFE, 0⟩ : Instruction).execute branchCexCPU Memory.new).map
        (fun r => (r.1.pc, r.1.cycles)) = some (0x8000, 5) ∧
    branchClaimCost 0x8002 0x8000 = 3 ∧
    ((⟨0xB0, 0x80, 0⟩ : Instruction).execute branchCexCPU Memory.new).map
        (fun r => r.1.pc) = some 0x8082 ∧
    (0x8082 : Nat) ≠ (0x8000 + 2 + 65536 - 128) % 65536 := by
  exact ⟨by rfl, by decide, by rfl, by decide⟩

/-- C3 as amended: for every branch instruction, a failed condition
advances PC by 2 and costs exactly 2 cycles; a taken branch sets PC to
(PC after fetch) plus the effective displacement (mod 2^16) and costs
2 + 1 cycles, plus 2 more exactly when the page of the *pre-fetch* PC
plus the effective displacement — not the page of the branch target —
differs from the page of the post-fetch PC.  The final conjunct pins the
effective displacement of `add_relative` for every argument byte: bytes
below `$80` add their value, bytes above `$80` subtract `256 − b`, and
byte `$80` adds 128 (the i8 negation of −128 wraps) instead of
subtracting it. -/
theorem branch_semantics (i : Instruction) (cpu : CPU) (m : Memory) (cond : Bool)
    (hc : branchCondition i.op cpu = some cond) :
    i.execute cpu m = some (i.branchRel cond cpu 2, m) ∧
    (cond = false →
      (i.branchRel cond cpu 2).pc = wrappingAdd16 cpu.pc 2 ∧
      (i.branchRel cond cpu 2).cycles = cpu.cycles + 2) ∧
    (cond = true →
      (i.branchRel cond cpu 2).pc = wrappingAdd16 (add_relative cpu.pc i.relative) 2 ∧
      (i.branchRel cond cpu 2).cycles =
        cpu.cycles + 3 +
          (if page (cpu.pc + 2) ≠ page (add_relative cpu.pc i.relative) then 2 else 0)) ∧
    (∀ b : Nat, b < 256 →
      add_relative cpu.pc (toI8 b) =
        if b = 128 then (cpu.pc + 128) % 65536
        else if b < 128 then (cpu.pc + b) % 65536
        else (cpu.pc + 65280 + b) % 65536) := by
  refine ⟨?_, ?_, ?_, ?_⟩
  · unfold branchCondition at hc
    split_ifs at hc with h1 h2 h3 h4 h5 h6 h7 h8
    · obtain rfl : _ = cond := Option.some.inj hc
      simp [Instruction.execute, h1, decode_opcode, opcode_len, CPU.poll_irq]
    · obtain rfl : _ = cond := Option.some.inj hc
      simp [Instruction.execute, h2, decode_opcode, opcode_len, CPU.poll_irq]
    · obtain rfl : _ = cond := Option.some.inj hc
      simp [Instruction.execute, h3, decode_opcode, opcode_len, CPU.poll_irq]
    · obtain rfl : _ = cond := Option.some.inj hc
      simp [Instruction.execute, h4, decode_opcode, opcode_len, CPU.poll_irq]
    · obtain rfl : _ = cond := Option.some.inj hc
      simp [Instruction.execute, h5, decode_opcode, opcode_len, CPU.poll_irq]
    · obtain rfl : _ = cond := Option.some.inj hc
      simp [Instruction.execute, h6, decode_opcode, opcode_len, CPU.poll_irq]
    · obtain rfl : _ = cond := Option.some.inj hc
      simp [Instruction.execute, h7, decode_opcode, opcode_len, CPU.poll_irq]
    · obtain rfl : _ = cond := Option.some.inj hc
      simp [Instruction.execute, h8, decode_opcode, opcode_len, CPU.poll_irq]
  · intro h
    subst h
    simp [Instruction.branchRel]
  · intro h
    subst h
    unfold Instruction.branchRel
    by_cases hpc : page_cross (cpu.pc + 2) (add_relative cpu.pc i.relative) = PageCross.Same
    · have hp : page (cpu.pc + 2) = page (add_relative cpu.pc i.relative) := by
        by_contra hne
        exact absurd hpc (by simpa using (page_cross_ne_same_iff _ _).mpr hne)
      simp [hpc, hp]
    · have hp : page (cpu.pc + 2) ≠ page (add_relative cpu.pc i.relative) :=
        (page_cross_ne_same_iff _ _).mp hpc
      simp [hpc, hp]
  · intro b hb
    unfold add_relative toI8 i8AsU16 wrapI8 wrappingAdd16 wrappingSub16
    split_ifs <;> omega

/-- The CPU state of the claim's branch example: `PC = $80F0`, carry
set. -/
def branchExampleCPU : CPU := ⟨0x80F0, 0xFD, 0, 0, 0, 0x01, 0, 0⟩

/-- Witness for the amended branch semantics at the claim's example:
`BCS $10` at `PC = $80F0` with carry set lands on `PC = $8102` after
5 cycles; and the effective displacement of the byte `$80` there is
+128, giving target base `$8170`. -/
theorem branch_semantics_witness :
    (⟨0xB0, 0x10, 0⟩ : Instruction).execute branchExampleCPU Memory.new =
      some ((⟨0xB0, 0x10, 0⟩ : Instruction).branchRel true branchExampleCPU 2, Memory.new) ∧
    ((⟨0xB0, 0x10, 0⟩ : Instruction).branchRel true branchExampleCPU 2).pc = 0x8102 ∧
    ((⟨0xB0, 0x10, 0⟩ : Instruction).branchRel true branchExampleCPU 2).cycles = 5 ∧
    add_relative branchExampleCPU.pc (toI8 0x80) = 0x8170 := by
  obtain ⟨h1, _, h3, h4⟩ :=
    branch_semantics ⟨0xB0, 0x10, 0⟩ branchExampleCPU Memory.new true (by decide)
  obtain ⟨hpc, hcyc⟩ := h3 rfl
  refine ⟨h1, ?_, ?_, ?_⟩
  · rw [hpc]; rfl
  · rw [hcyc]; decide
  · rw [h4 0x80 (by decide)]; decide

/-! ## C4: BRK -/

/-- The CPU state of the BRK exhibit: `PC = $C000`, `SP = $FD`,
`P = $24`. -/
def brkCPU : CPU := ⟨0xC000, 0xFD, 0, 0, 0, 0x24, 0, 0⟩

/-- C4: the claim states that BRK pushes `PC + 2` and then `P | $10`.
`BRKImp` has length 1 in the opcode table and the arm pushes
`pc.wrapping_add(len)` and the raw `p`, so at `PC = $C000`, `P = $24`,
`SP = $FD` the bytes pushed are `$C0 $01` (the address `$C001 = PC + 1`,
not `$C002 = PC + 2`) and `$24` (`P` without the B bit, not
`$34 = P | $10`); only the live status register receives the B flag
afterwards. -/
theorem brk_pushes_pc_plus_one_and_raw_p :
    ((⟨0x00, 0, 0⟩ : Instruction).execute brkCPU Memory.new).map
        (fun r => (r.2.ram 0x1FD, r.2.ram 0x1FC, r.2.ram 0x1FB, r.1.p, r.1.pc, r.1.sp,
          r.1.cycles)) =
      some (0xC0, 0x01, 0x24, 0x34, 0xC001, 0xFA, 7) := by
  rfl

/-! ## C5: the indirect-JMP page-wrap bug -/

/-- C5: `read_u16_wrapped_msb(base)` returns the byte at `base` as LSB
and, when `base & 0xFF = 0xFF`, the byte at `base & 0xFF00` (the start of
the same page, `base - 0xFF`) as MSB rather than the byte at `base + 1`;
for any other base the MSB comes from `base + 1`; and the JMP-indirect
arm loads PC from exactly this reader. -/
theorem jmp_indirect_wrapped_msb (m : Memory) (base : Nat) (hb : base ≤ 0xFFFF) :
    (base % 256 = 0xFF →
      base - 0xFF = base / 256 * 256 ∧
      m.read_u16_wrapped_msb base =
        (do
          let (lsb, m1) ← m.read_u8 base
          let (msb, m2) ← m1.read_u8 (base / 256 * 256)
          pure (lsb + 256 * msb, m2))) ∧
    (base % 256 ≠ 0xFF →
      m.read_u16_wrapped_msb base =
        (do
          let (lsb, m1) ← m.read_u8 base
          let (msb, m2) ← m1.read_u8 (base + 1)
          pure (lsb + 256 * msb, m2))) ∧
    (∀ cpu lo hi, lo + 256 * hi = base →
      (⟨0x6C, lo, hi⟩ : Instruction).execute cpu m =
        (m.read_u16_wrapped_msb base).bind (fun r =>
          some (({ cpu with pc := r.1, cycles := cpu.cycles + 5 } : CPU), r.2))) := by
  refine ⟨?_, ?_, ?_⟩
  · intro h
    have heq : base - 0xFF = base / 256 * 256 := by omega
    refine ⟨heq, ?_⟩
    cases hr : m.read_u8 base with
    | none => simp [Memory.read_u16_wrapped_msb, hr]
    | some p =>
      obtain ⟨lsb, m1⟩ := p
      simp [Memory.read_u16_wrapped_msb, hr, h, heq]
  · intro h
    cases hr : m.read_u8 base with
    | none => simp [Memory.read_u16_wrapped_msb, hr]
    | some p =>
      obtain ⟨lsb, m1⟩ := p
      simp [Memory.read_u16_wrapped_msb, hr, h]
  · intro cpu lo hi hsum
    cases hr : m.read_u16_wrapped_msb base with
    | none =>
      simp [Instruction.execute, decode_opcode, Instruction.arg_u16, hsum, hr]
    | some p =>
      simp [Instruction.execute, decode_opcode, opcode_len, Instruction.arg_u16, hsum, hr,
        CPU.poll_irq]

/-- Witness for C5 at `base = $30FF`: the MSB of the wrapped read comes
from `$3000`, the start of the page. -/
theorem jmp_indirect_wrapped_msb_witness :
    Memory.new.read_u16_wrapped_msb 0x30FF =
      (do
        let (lsb, m1) ← Memory.new.read_u8 0x30FF
        let (msb, m2) ← m1.read_u8 0x3000
        pure (lsb + 256 * msb, m2)) ∧
    (0x30FF : Nat) - 0xFF = 0x3000 := by
  obtain ⟨heq, hread⟩ :=
    (jmp_indirect_wrapped_msb Memory.new 0x30FF (by decide)).1 (by decide)
  have h3 : (0x30FF : Nat) / 256 * 256 = 0x3000 := by decide
  rw [h3] at hread heq
  exact ⟨hread, heq⟩

/-! ## C6: stack round-trips -/

/-- C6: for every initial SP (wrap cases included) and every byte,
`stack_push_u8` then `stack_pop_u8` returns the byte and restores SP; for
every 16-bit value, `stack_push_u16` writes the high byte at the higher
address, moves SP down by two with 8-bit wraparound, and
`stack_pop_u16` returns the value and restores SP. -/
theorem stack_roundtrip (cpu : CPU) (m : Memory) (v w : Nat)
    (hsp : cpu.sp < 256) (hv : v < 256) (hw : w < 65536) :
    ((m.stack_push_u8 cpu v).bind (fun r => r.1.stack_pop_u8 r.2)).map
        (fun t => (t.1, t.2.2.sp)) = some (v, cpu.sp) ∧
    (m.stack_push_u16 cpu w).map
        (fun r => (r.2.sp, r.1.ram (0x100 + cpu.sp), r.1.ram (0xFF + cpu.sp))) =
      some ((cpu.sp + 254) % 256, w / 256 % 256, w % 256) ∧
    ((m.stack_push_u16 cpu w).bind (fun r => r.1.stack_pop_u16 r.2)).map
        (fun t => (t.1, t.2.2.sp)) = some (w, cpu.sp) := by
  have e2 : STACK_OFFSET + cpu.sp - 1 = 255 + cpu.sp := by
    simp only [STACK_OFFSET]; omega
  have hbA : (255 : Nat) + cpu.sp ≤ 0x7FF := by omega
  have hbB : STACK_OFFSET + cpu.sp ≤ 0x7FF := by simp only [STACK_OFFSET]; omega
  have hne : ¬((255 : Nat) + cpu.sp = STACK_OFFSET + cpu.sp) := by
    simp only [STACK_OFFSET]; omega
  have hne2 : ¬((255 : Nat) + cpu.sp = 256 + cpu.sp) := by omega
  have hsp2 : wrappingAdd8 (wrappingSub8 cpu.sp 1) 1 = cpu.sp := by
    simp only [wrappingAdd8, wrappingSub8]; omega
  have hsp3 : wrappingAdd8 (wrappingSub8 cpu.sp 2) 2 = cpu.sp := by
    simp only [wrappingAdd8, wrappingSub8]; omega
  have hspv : wrappingSub8 cpu.sp 2 = (cpu.sp + 254) % 256 := by
    simp only [wrappingSub8]; omega
  have hval : w % 256 + 256 * (w / 256 % 256) = w := by omega
  refine ⟨?_, ?_, ?_⟩
  · unfold Memory.stack_push_u8 Memory.stack_pop_u8
    rw [Memory.write_u8_ram _ _ _ hbB]
    simp [hsp2, Memory.read_u8_ram _ _ hbB]
  · unfold Memory.stack_push_u16 Memory.write_u16_alt
    simp [e2, Memory.write_u8_ram _ _ _ hbA, Memory.write_u8_ram _ _ _ hbB,
      hne, hne2, hspv]
  · unfold Memory.stack_push_u16 Memory.stack_pop_u16 Memory.write_u16_alt Memory.read_u16_alt
    simp [e2, Memory.write_u8_ram _ _ _ hbA, Memory.write_u8_ram _ _ _ hbB, hsp3,
      Memory.read_u8_ram _ _ hbA, Memory.read_u8_ram _ _ hbB, hne, hne2, hval]

/-- A CPU state whose stack pointer sits at the wrap boundary
`SP = $00`. -/
def wrapCPU : CPU := ⟨0xC000, 0x00, 0, 0, 0, 0x24, 0, 0⟩

/-- Witness for C6 at the wrap case `SP = $00`, byte `$AB` and word
`$BEEF`. -/
theorem stack_roundtrip_witness :
    ((Memory.new.stack_push_u8 wrapCPU 0xAB).bind (fun r => r.1.stack_pop_u8 r.2)).map
        (fun t => (t.1, t.2.2.sp)) = some (0xAB, 0) ∧
    (Memory.new.stack_push_u16 wrapCPU 0xBEEF).map
        (fun r => (r.2.sp, r.1.ram (0x100 + wrapCPU.sp), r.1.ram (0xFF + wrapCPU.sp))) =
      some (254, 0xBE, 0xEF) ∧
    ((Memory.new.stack_push_u16 wrapCPU 0xBEEF).bind (fun r => r.1.stack_pop_u16 r.2)).map
        (fun t => (t.1, t.2.2.sp)) = some (0xBEEF, 0) := by
  exact stack_roundtrip wrapCPU Memory.new 0xAB 0xBEEF (by decide) (by decide) (by decide)

/-! ## C7: JSR/RTS round-trip -/

/-- C7: executing a JSR absolute and then an RTS with no intervening
stack mutation leaves PC at `JSR_PC + 3` and restores SP; after the JSR
alone, PC is the 16-bit target and SP has moved down by two. -/
theorem jsr_rts_roundtrip (cpu : CPU) (m : Memory) (lo hi : Nat)
    (hsp : cpu.sp < 256) (hpc : cpu.pc + 3 < 65536) :
    (((⟨0x20, lo, hi⟩ : Instruction).execute cpu m).bind
        (fun r => (⟨0x60, 0, 0⟩ : Instruction).execute r.1 r.2)).map
        (fun r => (r.1.pc, r.1.sp)) = some (cpu.pc + 3, cpu.sp) ∧
    ((⟨0x20, lo, hi⟩ : Instruction).execute cpu m).map
        (fun r => (r.1.pc, r.1.sp)) = some (lo + 256 * hi, (cpu.sp + 254) % 256) := by
  have e2 : STACK_OFFSET + cpu.sp - 1 = 255 + cpu.sp := by
    simp only [STACK_OFFSET]; omega
  have hbA : (255 : Nat) + cpu.sp ≤ 0x7FF := by omega
  have hbB : STACK_OFFSET + cpu.sp ≤ 0x7FF := by simp only [STACK_OFFSET]; omega
  have hne : ¬((255 : Nat) + cpu.sp = STACK_OFFSET + cpu.sp) := by
    simp only [STACK_OFFSET]; omega
  have hne2 : ¬((255 : Nat) + cpu.sp = 256 + cpu.sp) := by omega
  have hsp3 : wrappingAdd8 (wrappingSub8 cpu.sp 2) 2 = cpu.sp := by
    simp only [wrappingAdd8, wrappingSub8]; omega
  have hspv : wrappingSub8 cpu.sp 2 = (cpu.sp + 254) % 256 := by
    simp only [wrappingSub8]; omega
  have hjsr : wrappingSub16 (wrappingAdd16 cpu.pc 3) 1 = cpu.pc + 2 := by
    simp only [wrappingAdd16, wrappingSub16]; omega
  have hval2 : (cpu.pc + 2) % 256 + 256 * ((cpu.pc + 2) / 256 % 256) = cpu.pc + 2 := by omega
  have hrts : wrappingAdd16 (cpu.pc + 2) 1 = cpu.pc + 3 := by
    simp only [wrappingAdd16]; omega
  refine ⟨?_, ?_⟩
  · unfold Instruction.execute Memory.stack_push_u16 Memory.stack_pop_u16
      Memory.write_u16_alt Memory.read_u16_alt
    simp [decode_opcode, opcode_len, CPU.poll_irq, Instruction.absolute, Instruction.arg_u16,
      e2, hjsr, Memory.write_u8_ram _ _ _ hbA, Memory.write_u8_ram _ _ _ hbB, hsp3,
      Memory.read_u8_ram _ _ hbA, Memory.read_u8_ram _ _ hbB, hne, hne2, hval2, hrts]
  · unfold Instruction.execute Memory.stack_push_u16 Memory.write_u16_alt
    simp [decode_opcode, opcode_len, CPU.poll_irq, Instruction.absolute, Instruction.arg_u16,
      e2, hjsr, Memory.write_u8_ram _ _ _ hbA, Memory.write_u8_ram _ _ _ hbB, hspv, hne, hne2]

/-- The CPU state of the claim's JSR/RTS example: `PC = $C000`,
`SP = $FD`. -/
def jsrCPU : CPU := ⟨0xC000, 0xFD, 0, 0, 0, 0x24, 0, 0⟩

/-- Witness for C7 at the claim's example: `JSR $C040` at `$C000` then
RTS gives `PC = $C003` and `SP = $FD` again. -/
theorem jsr_rts_roundtrip_witness :
    (((⟨0x20, 0x40, 0xC0⟩ : Instruction).execute jsrCPU Memory.new).bind
        (fun r => (⟨0x60, 0, 0⟩ : Instruction).execute r.1 r.2)).map
        (fun r => (r.1.pc, r.1.sp)) = some (0xC003, 0xFD) ∧
    ((⟨0x20, 0x40, 0xC0⟩ : Instruction).execute jsrCPU Memory.new).map
        (fun r => (r.1.pc, r.1.sp)) = some (0xC040, 0xFB) := by
  exact jsr_rts_roundtrip jsrCPU Memory.new 0x40 0xC0 (by decide) (by decide)

/-! ## C8: PHP/PLP round-trip -/

set_option maxRecDepth 100000 in
/-- The status-byte identity behind the PHP/PLP round-trip: pushing with
B forced on, masking B off on the pull and merging the old bit 5 yields
the original byte with B cleared. -/
theorem php_plp_mask : ∀ p < 256, ((p ||| 0x10) &&& 0xEF) ||| (p &&& 0x20) = p &&& 0xEF := by
  decide

/-- C8: PHP pushes `P | $10` and PLP then restores P with bit 5 taken
from the pre-PLP P and the B flag cleared, i.e. the final P is the
original `P & $EF`. -/
theorem php_plp_roundtrip (cpu : CPU) (m : Memory) (hsp : cpu.sp < 256) (hp : cpu.p < 256) :
    (((⟨0x08, 0, 0⟩ : Instruction).execute cpu m).bind
        (fun r => (⟨0x28, 0, 0⟩ : Instruction).execute r.1 r.2)).map (fun r => r.1.p) =
      some (cpu.p &&& 0xEF) ∧
    ((⟨0x08, 0, 0⟩ : Instruction).execute cpu m).map
        (fun r => r.2.ram (0x100 + cpu.sp)) = some (cpu.p ||| 0x10) := by
  have hbB : STACK_OFFSET + cpu.sp ≤ 0x7FF := by simp only [STACK_OFFSET]; omega
  have hsp2 : wrappingAdd8 (wrappingSub8 cpu.sp 1) 1 = cpu.sp := by
    simp only [wrappingAdd8, wrappingSub8]; omega
  have hflag := php_plp_mask cpu.p hp
  refine ⟨?_, ?_⟩
  · unfold Instruction.execute Memory.stack_push_u8 Memory.stack_pop_u8
    simp [decode_opcode, opcode_len, CPU.poll_irq, hsp2,
      Memory.write_u8_ram _ _ _ hbB, Memory.read_u8_ram _ _ hbB, hflag]
  · unfold Instruction.execute Memory.stack_push_u8
    simp [decode_opcode, opcode_len, CPU.poll_irq, Memory.write_u8_ram _ _ _ hbB]

/-- A CPU state with every status bit set (`P = $FF`). -/
def phpCPU : CPU := ⟨0xC000, 0xFD, 0, 0, 0, 0xFF, 0, 0⟩

/-- Witness for C8 at `P = $FF`: PHP pushes `$FF` and PLP restores
`P = $EF` (B cleared, bit 5 kept). -/
theorem php_plp_roundtrip_witness :
    (((⟨0x08, 0, 0⟩ : Instruction).execute phpCPU Memory.new).bind
        (fun r => (⟨0x28, 0, 0⟩ : Instruction).execute r.1 r.2)).map (fun r => r.1.p) =
      some 0xEF ∧
    ((⟨0x08, 0, 0⟩ : Instruction).execute phpCPU Memory.new).map
        (fun r => r.2.ram (0x100 + phpCPU.sp)) = some 0xFF := by
  exact php_plp_roundtrip phpCPU Memory.new (by decide) (by decide)

/-! ## C9: bus permission gating -/

/-- All seven byte banks of two memories coincide (the I/O touch stores
may differ). -/
def Memory.SameBanks (m m' : Memory) : Prop :=
  m.ram = m'.ram ∧ m.ppu_ctrl_registers = m'.ppu_ctrl_registers ∧
  m.misc_ctrl_registers = m'.misc_ctrl_registers ∧ m.expansion_rom = m'.expansion_rom ∧
  m.sram = m'.sram ∧ m.prg_rom_1 = m'.prg_rom_1 ∧ m.prg_rom_2 = m'.prg_rom_2

/-- Updating a PPU touch status changes no byte bank. -/
theorem Memory.SameBanks_update_ppu (m : Memory) (i : Nat) (op : MemoryOperation) :
    m.SameBanks (m.update_ppu_register_status i op) :=
  ⟨rfl, rfl, rfl, rfl, rfl, rfl, rfl⟩

/-- Updating a misc touch status changes no byte bank. -/
theorem Memory.SameBanks_update_misc (m : Memory) (i : Nat) (op : MemoryOperation) :
    m.SameBanks (m.update_misc_register_status i op) :=
  ⟨rfl, rfl, rfl, rfl, rfl, rfl, rfl⟩

/-- Addresses `$2000-$3FFF` decode to the PPU register window with the
mirror transform `(addr − $2000) mod 8`. -/
theorem Memory.map_ppu_region (m : Memory) (a : Nat) (op : MemoryOperation)
    (h1 : 0x2000 ≤ a) (h2 : a ≤ 0x3FFF) :
    m.map a op = some (m.map_ppu_registers ((a - 0x2000) % 8) op) := by
  unfold Memory.map
  rw [if_neg (by simp only [RAM_END_ADDR]; omega), if_neg (by simp only [RAM_MIRROR_END]; omega)]
  by_cases h : a ≤ 0x2007
  · rw [if_pos h, Nat.mod_eq_of_lt (show a - 0x2000 < 8 by omega)]
  · rw [if_neg h, if_pos (by simp only [PPU_CTRL_REGISTERS_MIRROR_END]; omega)]

/-- Addresses `$4000-$401F` decode to the APU/IO register window. -/
theorem Memory.map_misc_region (m : Memory) (a : Nat) (op : MemoryOperation)
    (h1 : 0x4000 ≤ a) (h2 : a ≤ 0x401F) :
    m.map a op = some (m.map_misc_registers (a - 0x4000) op) := by
  unfold Memory.map
  rw [if_neg (by simp only [RAM_END_ADDR]; omega), if_neg (by simp only [RAM_MIRROR_END]; omega),
    if_neg (by simp only [PPU_CTRL_REGISTERS_END]; omega),
    if_neg (by simp only [PPU_CTRL_REGISTERS_MIRROR_END]; omega),
    if_pos (by simp only [MISC_CTRL_REGISTERS_END]; omega)]

/-- Expansion-ROM and PRG-ROM addresses decode to read-only banks with no
touch-state side effect. -/
theorem Memory.map_rom_region (m : Memory) (a : Nat) (op : MemoryOperation)
    (h : (0x4020 ≤ a ∧ a ≤ 0x5FFF) ∨ (0x8000 ≤ a ∧ a ≤ 0xFFFF)) :
    ∃ bank idx, m.map a op = some (m, bank, idx, true, false) := by
  unfold Memory.map
  rw [if_neg (by simp only [RAM_END_ADDR]; omega), if_neg (by simp only [RAM_MIRROR_END]; omega),
    if_neg (by simp only [PPU_CTRL_REGISTERS_END]; omega),
    if_neg (by simp only [PPU_CTRL_REGISTERS_MIRROR_END]; omega),
    if_neg (by simp only [MISC_CTRL_REGISTERS_END]; omega)]
  rcases h with ⟨h1, h2⟩ | ⟨h1, h2⟩
  · rw [if_pos (by simp only [EXPANSION_ROM_END]; omega)]
    exact ⟨_, _, rfl⟩
  · rw [if_neg (by simp only [EXPANSION_ROM_END]; omega),
      if_neg (by simp only [SRAM_END]; omega)]
    by_cases h : a ≤ 0xBFFF
    · rw [if_pos h]
      exact ⟨_, _, rfl⟩
    · rw [if_neg h, if_pos (by simp only [PRG_ROM_2_END]; omega)]
      exact ⟨_, _, rfl⟩

/-- C9 counterexample: a read of the write-only register `$2000` does
return `0`, but it is not free of side effects as the claim states: the
PPU touch status of register 0 changes from `Untouched` to `Read`. -/
theorem ppu_read_touch_counterexample :
    (Memory.new.read_u8 0x2000).map
        (fun r => (r.1, r.2.ppu_ctrl_registers_status 0)) =
      some (0, PPURegisterStatus.Read) ∧
    Memory.new.ppu_ctrl_registers_status 0 = PPURegisterStatus.Untouched ∧
    PPURegisterStatus.Read ≠ PPURegisterStatus.Untouched := by
  exact ⟨by rfl, by rfl, by decide⟩

/-- C9 as amended: reads of the write-only PPU registers (`$2000`,
`$2001`, `$2003`, `$2005`, `$2006` and their mirrors) and of `$4014`
return `0` and change no memory bank — though the I/O touch state may be
updated; writes to expansion ROM and PRG-ROM are dropped with the memory
entirely unchanged; writes to the read-only register `$2002` and its
mirrors change no memory bank (again the touch state may be updated). -/
theorem bus_gating (m : Memory) (a v r : Nat) :
    (0x2000 ≤ a → a ≤ 0x3FFF → (a - 0x2000) % 8 = r →
      (r = 0 ∨ r = 1 ∨ r = 3 ∨ r = 5 ∨ r = 6) →
      ∃ m', m.read_u8 a = some (0, m') ∧ m.SameBanks m') ∧
    (∃ m', m.read_u8 0x4014 = some (0, m') ∧ m.SameBanks m') ∧
    ((0x4020 ≤ a ∧ a ≤ 0x5FFF) ∨ (0x8000 ≤ a ∧ a ≤ 0xFFFF) →
      m.write_u8 a v = some m) ∧
    (0x2000 ≤ a → a ≤ 0x3FFF → (a - 0x2000) % 8 = 2 →
      ∃ m', m.write_u8 a v = some m' ∧ m.SameBanks m') := by
  refine ⟨?_, ?_, ?_, ?_⟩
  · intro h1 h2 hr hcase
    have hmap := Memory.map_ppu_region m a MemoryOperation.Read h1 h2
    rw [hr] at hmap
    rcases hcase with rfl | rfl | rfl | rfl | rfl
    · exact ⟨_, by simp [Memory.read_u8, hmap, Memory.map_ppu_registers],
        Memory.SameBanks_update_ppu m 0 MemoryOperation.Read⟩
    · exact ⟨_, by simp [Memory.read_u8, hmap, Memory.map_ppu_registers],
        Memory.SameBanks_update_ppu m 1 MemoryOperation.Read⟩
    · exact ⟨_, by simp [Memory.read_u8, hmap, Memory.map_ppu_registers],
        Memory.SameBanks_update_ppu m 3 MemoryOperation.Read⟩
    · exact ⟨_, by simp [Memory.read_u8, hmap, Memory.map_ppu_registers],
        Memory.SameBanks_update_ppu m 5 MemoryOperation.Read⟩
    · exact ⟨_, by simp [Memory.read_u8, hmap, Memory.map_ppu_registers],
        Memory.SameBanks_update_ppu m 6 MemoryOperation.Read⟩
  · have hmap := Memory.map_misc_region m 0x4014 MemoryOperation.Read (by omega) (by omega)
    exact ⟨_, by simp [Memory.read_u8, hmap, Memory.map_misc_registers],
      Memory.SameBanks_update_misc m 0x14 MemoryOperation.Read⟩
  · intro h
    obtain ⟨bank, idx, hmap⟩ := Memory.map_rom_region m a MemoryOperation.Write h
    simp [Memory.write_u8, hmap]
  · intro h1 h2 hr
    have hmap := Memory.map_ppu_region m a MemoryOperation.Write h1 h2
    rw [hr] at hmap
    exact ⟨_, by simp [Memory.write_u8, hmap, Memory.map_ppu_registers],
      Memory.SameBanks_update_ppu m 2 MemoryOperation.Write⟩

/-- Witness for the amended C9: a read of `$2005` and of `$4014`, a
write to PRG-ROM `$9000`, and a write to `$2002`, all on a fresh
memory. -/
theorem bus_gating_witness :
    (∃ m', Memory.new.read_u8 0x2005 = some (0, m') ∧ Memory.new.SameBanks m') ∧
    (∃ m', Memory.new.read_u8 0x4014 = some (0, m') ∧ Memory.new.SameBanks m') ∧
    Memory.new.write_u8 0x9000 0x55 = some Memory.new ∧
    (∃ m', Memory.new.write_u8 0x2002 0x55 = some m' ∧ Memory.new.SameBanks m') := by
  obtain ⟨g1, g2, _, _⟩ := bus_gating Memory.new 0x2005 0x55 5
  obtain ⟨_, _, g3, _⟩ := bus_gating Memory.new 0x9000 0x55 0
  obtain ⟨_, _, _, g4⟩ := bus_gating Memory.new 0x2002 0x55 2
  exact ⟨g1 (by omega) (by omega) (by decide) (by decide),
    g2, g3 (Or.inr ⟨by omega, by omega⟩), g4 (by omega) (by omega) (by decide)⟩

/-! ## C10: the PPU touch-state machine -/

/-- C10: the touch-state machine preserves write history: a Write while
`Written` yields `WrittenTwice`; a Read while `Written` or `WrittenTwice`
leaves the status unchanged; a Read from `Untouched` yields `Read`. -/
theorem ppu_touch_machine (m : Memory) (idx : Nat) (hidx : idx < 8) :
    (m.ppu_ctrl_registers_status idx = PPURegisterStatus.Written →
      (m.update_ppu_register_status idx MemoryOperation.Write).ppu_ctrl_registers_status idx =
        PPURegisterStatus.WrittenTwice) ∧
    ((m.ppu_ctrl_registers_status idx = PPURegisterStatus.Written ∨
      m.ppu_ctrl_registers_status idx = PPURegisterStatus.WrittenTwice) →
      (m.update_ppu_register_status idx MemoryOperation.Read).ppu_ctrl_registers_status idx =
        m.ppu_ctrl_registers_status idx) ∧
    (m.ppu_ctrl_registers_status idx = PPURegisterStatus.Untouched →
      (m.update_ppu_register_status idx MemoryOperation.Read).ppu_ctrl_registers_status idx =
        PPURegisterStatus.Read) := by
  refine ⟨?_, ?_, ?_⟩
  · intro h
    simp [Memory.update_ppu_register_status, h]
  · rintro (h | h) <;> simp [Memory.update_ppu_register_status, h]
  · intro h
    simp [Memory.update_ppu_register_status, h]

/-- A memory whose PPU registers are all in the `Written` touch state. -/
def memWritten : Memory :=
  { Memory.new with ppu_ctrl_registers_status := fun _ => PPURegisterStatus.Written }

/-- Witness for C10 at register 0: Write on `Written` gives
`WrittenTwice`, Read on `Written` keeps `Written`, Read on `Untouched`
gives `Read`. -/
theorem ppu_touch_machine_witness :
    (memWritten.update_ppu_register_status 0 MemoryOperation.Write).ppu_ctrl_registers_status 0 =
      PPURegisterStatus.WrittenTwice ∧
    (memWritten.update_ppu_register_status 0 MemoryOperation.Read).ppu_ctrl_registers_status 0 =
      PPURegisterStatus.Written ∧
    (Memory.new.update_ppu_register_status 0 MemoryOperation.Read).ppu_ctrl_registers_status 0 =
      PPURegisterStatus.Read := by
  obtain ⟨w1, w2, _⟩ := ppu_touch_machine memWritten 0 (by decide)
  obtain ⟨_, _, w3⟩ := ppu_touch_machine Memory.new 0 (by decide)
  exact ⟨w1 rfl, (w2 (Or.inl rfl)).trans rfl, w3 rfl⟩

end NesRs
